import Mathlib

/-!
Verification development for the madvognen Home Assistant integration.

The Python source under custom_components/madvognen/sensor.py (and the
older top-level sensor.py variant) is shallowly embedded below:

* calendar dates are modelled as integers counting days since 1970-01-01
  (Python date arithmetic with timedelta is integer day arithmetic, and
  date.weekday returns 0 for Monday, which for this epoch is (d + 3) mod 7
  because 1970-01-01 was a Thursday);
* times of day are modelled as seconds since midnight (Python time objects
  compare lexicographically on (hour, minute, second, microsecond), which
  agrees with comparison of total seconds);
* decoded JSON payloads are modelled by the inductive type Json, where an
  object is an association list with pairwise distinct keys in insertion
  order, exactly the Python dict produced by json decoding;
* Python exceptions are modelled by Except String, the message standing in
  for str(e).
-/

/-- A decoded JSON value as held by the Python code after response.json().
An obj is the decoded dict: keys are pairwise distinct, in insertion order. -/
inductive Json where
  | null : Json
  | bool : Bool → Json
  | num : Int → Json
  | str : String → Json
  | arr : List Json → Json
  | obj : List (String × Json) → Json

/-- Python dict lookup d.get(k) on a decoded JSON object. -/
def jsonLookup (kvs : List (String × Json)) (k : String) : Option Json :=
  match kvs with
  | [] => none
  | (k2, v) :: rest => if k2 = k then some v else jsonLookup rest k

/-- Python truthiness of a decoded JSON value. -/
def pyTruthy : Json → Bool
  | .null => false
  | .bool b => b
  | .num n => n != 0
  | .str s => s != ""
  | .arr xs => !xs.isEmpty
  | .obj kvs => !kvs.isEmpty

/-- Whether the value is a Python dict, i.e. isinstance(data, dict). -/
def Json.isObj : Json → Bool
  | .obj _ => true
  | _ => false

/-- Python equality of an optional decoded value against a string: only a
str with the same contents compares equal; None and non-strings do not. -/
def isStrEq (o : Option Json) (t : String) : Bool :=
  match o with
  | some (.str s) => s == t
  | _ => false

/-! ### Calendar arithmetic

Dates are integers counting days since 1970-01-01.  civilFromDays and
daysFromCivil are the standard proleptic-Gregorian conversions (the same
algorithm the Python datetime module implements), used only to render
dates as strings and to locate DST transition days. -/

/-- Python date.weekday: 0 for Monday through 6 for Sunday.
1970-01-01 (day 0) was a Thursday, weekday 3. -/
def pyWeekday (d : Int) : Int := (d + 3) % 7

/-- Convert a day number (days since 1970-01-01) to (year, month, day)
in the proleptic Gregorian calendar. -/
def civilFromDays (z0 : Int) : Int × Int × Int :=
  let z := z0 + 719468
  let era := z / 146097
  let doe := z % 146097
  let yoe := (doe - doe / 1460 + doe / 36524 - doe / 146096) / 365
  let y := yoe + era * 400
  let doy := doe - (365 * yoe + yoe / 4 - yoe / 100)
  let mp := (5 * doy + 2) / 153
  let dd := doy - (153 * mp + 2) / 5 + 1
  let m := mp + (if mp < 10 then 3 else -9)
  (y + (if m ≤ 2 then 1 else 0), m, dd)

/-- Convert a (year, month, day) Gregorian date to its day number. -/
def daysFromCivil (y m d : Int) : Int :=
  let y2 := y - (if m ≤ 2 then 1 else 0)
  let era := y2 / 400
  let yoe := y2 - era * 400
  let mp := m + (if m > 2 then -3 else 9)
  let doy := (153 * mp + 2) / 5 + d - 1
  let doe := yoe * 365 + yoe / 4 - yoe / 100 + doy
  era * 146097 + doe - 719468

/-- Zero-pad a (nonnegative) calendar component to two digits, as the
strftime fields %d and %m do. -/
def pad2 (n : Int) : String := if n < 10 then "0" ++ toString n else toString n

/-- date.strftime with format %Y-%m-%d; also date.isoformat(), which agrees
with it for four-digit years. -/
def isoDate (d : Int) : String :=
  let c := civilFromDays d
  toString c.1 ++ "-" ++ pad2 c.2.1 ++ "-" ++ pad2 c.2.2

/-! ### The per-day payload parse: _parse_day_data -/

/-- Python str.strip(): drop leading and trailing whitespace, modelled for
the ASCII whitespace characters. -/
def pyStrip (s : String) : String :=
  String.mk (((s.toList.dropWhile Char.isWhitespace).reverse.dropWhile
    Char.isWhitespace).reverse)

/-- Python len() applied to the varer value; raises TypeError on values
without a length. -/
def pyLen : Json → Except String Nat
  | .arr xs => .ok xs.length
  | .str s => .ok s.length
  | .obj kvs => .ok kvs.length
  | _ => .error "TypeError: object has no len()"

/-- Python iteration (for item in varer) over a value already known to
support len(): a list yields its elements, a str its one-character strings,
a dict its keys.  Other cases are unreachable because pyLen raised first. -/
def iterElems : Json → List Json
  | .arr xs => xs
  | .str s => s.toList.map (fun c => Json.str (String.singleton c))
  | .obj kvs => kvs.map (fun kv => Json.str kv.1)
  | _ => []

/-- The first pass of _parse_day_data over menuoverskrifter.values():
sum len(section.get("varer", [])) over the dict-valued sections. -/
def countItems : List (String × Json) → Except String Nat
  | [] => .ok 0
  | (_, sec) :: rest =>
    match sec with
    | .obj skvs =>
      match pyLen ((jsonLookup skvs "varer").getD (.arr [])) with
      | .error e => .error e
      | .ok n =>
        match countItems rest with
        | .error e => .error e
        | .ok m => .ok (n + m)
    | _ => countItems rest

/-- One iteration of the inner item loop: if the item is a dict with a
"Navn" key whose value is truthy, append its stripped name; a truthy
non-string name raises AttributeError at name.strip(). -/
def handleItem (acc : List String) (item : Json) : Except String (List String) :=
  match item with
  | .obj ikvs =>
    match jsonLookup ikvs "Navn" with
    | none => .ok acc
    | some name =>
      if pyTruthy name then
        match name with
        | .str s => if pyStrip s != "" then .ok (acc ++ [pyStrip s]) else .ok acc
        | _ => .error "AttributeError: object has no attribute strip"
      else .ok acc
  | _ => .ok acc

/-- The inner loop of the second pass of _parse_day_data. -/
def collectFromVarer (acc : List String) : List Json → Except String (List String)
  | [] => .ok acc
  | it :: rest =>
    match handleItem acc it with
    | .error e => .error e
    | .ok acc2 => collectFromVarer acc2 rest

/-- The second pass of _parse_day_data over menuoverskrifter.items():
non-dict sections are skipped with continue. -/
def collectItems (acc : List String) : List (String × Json) → Except String (List String)
  | [] => .ok acc
  | (_, sec) :: rest =>
    match sec with
    | .obj skvs =>
      match collectFromVarer acc
          (iterElems ((jsonLookup skvs "varer").getD (.arr []))) with
      | .error e => .error e
      | .ok acc2 => collectItems acc2 rest
    | _ => collectItems acc rest

/-- _parse_day_data(data, requested_date) from
custom_components/madvognen/sensor.py: validates the date echo, then
collects the stripped non-empty Navn entries of every section.  A raised
Python exception is an Except.error carrying its message. -/
def parse_day_data (data : Json) (requestedDate : Int) : Except String (List String) :=
  match data with
  | .obj kvs =>
    let returnedDate := jsonLookup kvs "dato"
    let requestedStr := isoDate requestedDate
    if !isStrEq returnedDate requestedStr then .ok []
    else
      let menuoverskrifter := (jsonLookup kvs "menuoverskrifter").getD (.obj [])
      if !pyTruthy menuoverskrifter then .ok []
      else
        match menuoverskrifter with
        | .obj sections =>
          match countItems sections with
          | .error e => .error e
          | .ok total =>
            if total = 0 then .ok []
            else collectItems [] sections
        | _ => .error "AttributeError: object has no attribute values"
  | _ => .ok []

/-! ### Week selection: _get_relevant_monday -/

/-- _get_relevant_monday(current_date, current_time): t is the time of day
in seconds since midnight; the comparison against datetime.time(14, 0) is
the comparison of total seconds. -/
def get_relevant_monday (d : Int) (t : Nat) : Int :=
  let daysSinceMonday := pyWeekday d
  let currentMonday := d - daysSinceMonday
  let nextMonday := currentMonday + 7
  let weekday := pyWeekday d
  if weekday ≤ 3 then currentMonday
  else if weekday = 4 then
    if 14 * 3600 ≤ t then nextMonday else currentMonday
  else nextMonday

/-! ### Date rendering: _format_date and day names -/

/-- The DANISH_MONTHS table of sensor.py, as a list indexed by month - 1. -/
def danishMonths : List String :=
  ["januar", "februar", "marts", "april", "maj", "juni", "juli", "august",
   "september", "oktober", "november", "december"]

/-- English month names, as produced by strftime %B in the C locale. -/
def englishMonths : List String :=
  ["January", "February", "March", "April", "May", "June", "July", "August",
   "September", "October", "November", "December"]

/-- Abbreviated English month names, strftime %b in the C locale. -/
def englishMonthsShort : List String :=
  ["Jan", "Feb", "Mar", "Apr", "May", "Jun", "Jul", "Aug", "Sep", "Oct",
   "Nov", "Dec"]

/-- English weekday names lowercased: day.strftime("%A").lower(). -/
def dayNames : List String :=
  ["monday", "tuesday", "wednesday", "thursday", "friday", "saturday", "sunday"]

/-- The dict key used for a day in the weekly record. -/
def dayKey (d : Int) : String := dayNames.getD (pyWeekday d).toNat "monday"

/-- _format_date(date_obj): renders a date per the configured date_format,
falling back to the Danish format for unknown values. -/
def format_date (fmt : String) (d : Int) : String :=
  let c := civilFromDays d
  let y := c.1
  let m := c.2.1
  let dd := c.2.2
  if fmt = "iso" then toString y ++ "-" ++ pad2 m ++ "-" ++ pad2 dd
  else if fmt = "danish" then pad2 dd ++ "/" ++ pad2 m ++ "/" ++ toString y
  else if fmt = "danish_short" then pad2 dd ++ "/" ++ pad2 m
  else if fmt = "danish_text" then
    toString dd ++ ". " ++ danishMonths.getD (m - 1).toNat ""
  else if fmt = "english" then
    englishMonths.getD (m - 1).toNat "" ++ " " ++ pad2 dd ++ ", " ++ toString y
  else if fmt = "english_short" then
    englishMonthsShort.getD (m - 1).toNat "" ++ " " ++ pad2 dd
  else pad2 dd ++ "/" ++ pad2 m ++ "/" ++ toString y

/-- _get_week_description(monday, current_date). -/
def get_week_description (fmt : String) (monday currentDate : Int) : String :=
  let daysSinceMonday := pyWeekday currentDate
  let currentWeekMonday := currentDate - daysSinceMonday
  let formatted := format_date fmt monday
  if monday = currentWeekMonday then "This week (" ++ formatted ++ ")"
  else "Next week (" ++ formatted ++ ")"

/-! ### Epoch milliseconds for local noon: the two _calculate_millis variants

Both variants resolve the naive wall time 12:00 of the date against the
same IANA Europe/Copenhagen data: the zoneinfo variant builds an aware
datetime (fold defaults to 0) and subtracts the UTC epoch, the pytz
variant localizes with is_dst defaulting to False and converts to UTC.
The zone data (embedded below from the published IANA Europe/Copenhagen
zone, tzdata 2023, whose POSIX footer rule is CET-1CEST with transitions
on the last Sundays of March and October) is:
local mean time +00:50:20 until 1894-01-01, then CET +01:00 with summer
time +02:00 in the intervals listed in cphYearEvents; from 1996 on, the
EU rule extends indefinitely through the POSIX footer.  The libraries
differ in how they resolve wall times inside a transition window (PEP 495
fold versus the pytz is_dst flag); both resolution policies are embedded
and proved to agree at noon because every transition of this zone happens
at wall clock 23:00, 0:00, 2:00 or 3:00, never within an hour of noon.
timedelta.total_seconds() is float but exact in the representable date
range, so integer arithmetic is faithful. -/

/-- The day number of the last Sunday of month m of year y whose last day
of month is lastDom. -/
def lastSunOf (y m lastDom : Int) : Int :=
  let d := daysFromCivil y m lastDom
  d - (pyWeekday d + 1) % 7

/-- The summer-time start of one year of the Europe/Copenhagen zone, as
(day number, wall-clock second at which the clocks jump forward), when the
year has one.  Entries follow the transition list of the zone: 1916
(23:00 wall), the wartime start 1940-05-15 0:00, yearly starts 1943-1948
at 2:00 wall, none 1949-1979, 1980-04-06, and the last Sunday of March
from 1981 on (the EU rule, extended indefinitely by the POSIX footer). -/
def cphStartEvent (y : Int) : Option (Int × Int) :=
  if y = 1916 then some (daysFromCivil y 5 14, 82800)
  else if y = 1940 then some (daysFromCivil y 5 15, 0)
  else if y = 1943 then some (daysFromCivil y 3 29, 7200)
  else if y = 1944 then some (daysFromCivil y 4 3, 7200)
  else if y = 1945 then some (daysFromCivil y 4 2, 7200)
  else if y = 1946 then some (daysFromCivil y 5 1, 7200)
  else if y = 1947 then some (daysFromCivil y 5 4, 7200)
  else if y = 1948 then some (daysFromCivil y 5 9, 7200)
  else if y = 1980 then some (daysFromCivil y 4 6, 7200)
  else if 1981 ≤ y then some (lastSunOf y 3 31, 7200)
  else none

/-- The summer-time end of one year of the zone, as (day number,
wall-clock second of the fall-back): 1916 (23:00 wall), the wartime end
1942-11-02 3:00, yearly ends 1943-1948 at 3:00 wall, 1980-09-28, the last
Sunday of September 1981-1995 and the last Sunday of October from 1996. -/
def cphEndEvent (y : Int) : Option (Int × Int) :=
  if y = 1916 then some (daysFromCivil y 9 30, 82800)
  else if y = 1942 then some (daysFromCivil y 11 2, 10800)
  else if y = 1943 then some (daysFromCivil y 10 4, 10800)
  else if y = 1944 then some (daysFromCivil y 10 2, 10800)
  else if y = 1945 then some (daysFromCivil y 8 15, 10800)
  else if y = 1946 then some (daysFromCivil y 9 1, 10800)
  else if y = 1947 then some (daysFromCivil y 8 10, 10800)
  else if y = 1948 then some (daysFromCivil y 8 8, 10800)
  else if y = 1980 then some (daysFromCivil y 9 28, 10800)
  else if 1981 ≤ y ∧ y ≤ 1995 then some (lastSunOf y 9 30, 10800)
  else if 1996 ≤ y then some (lastSunOf y 10 31, 10800)
  else none

/-- Whether the year begins in summer time: only 1941 and 1942, inside
the continuous wartime summer time of 1940-1942. -/
def cphDstAtYearStart (y : Int) : Bool := y = 1941 ∨ y = 1942

/-- The zone data for one date: the UTC offset in force when the day
begins, and the transition of that day, if any, as (wall-clock second of
the change under the outgoing offset, incoming offset).  Before
1894-01-01 the offset is the local mean time +00:50:20 = 3020 s; on
1894-01-01 at 0:00 wall the zone moves to CET. -/
def cphDayInfo (d : Int) : Int × Option (Int × Int) :=
  if d < daysFromCivil 1894 1 1 then (3020, none)
  else if d = daysFromCivil 1894 1 1 then (3020, some (0, 3600))
  else
    match cphStartEvent (civilFromDays d).1, cphEndEvent (civilFromDays d).1 with
    | some sev, some eev =>
      if d = sev.1 then (3600, some (sev.2, 7200))
      else if d = eev.1 then (7200, some (eev.2, 3600))
      else if sev.1 < d ∧ d < eev.1 then (7200, none)
      else (3600, none)
    | some sev, none =>
      if d = sev.1 then (3600, some (sev.2, 7200))
      else if sev.1 < d then (7200, none)
      else (3600, none)
    | none, some eev =>
      if d = eev.1 then (7200, some (eev.2, 3600))
      else if d < eev.1 then (7200, none)
      else (3600, none)
    | none, none =>
      (if cphDstAtYearStart (civilFromDays d).1 then 7200 else 3600, none)

/-- PEP 495 resolution of a wall second against a day that starts at
offset off0 and transitions per tr, with fold = 0 (the default of
datetime.combine): both an ambiguous and a missing wall time resolve to
the offset in force before the transition. -/
def foldZeroResolve (off0 : Int) (tr : Option (Int × Int)) (t : Int) : Int :=
  match tr with
  | none => off0
  | some tr => if t < tr.1 + max (tr.2 - off0) 0 then off0 else tr.2

/-- pytz.localize resolution of a wall second with is_dst = False (the
default): outside transition windows the unique offset; inside the
missing window of a forward jump or the ambiguous window of a fall-back,
the non-summer side. -/
def isDstFalseResolve (off0 : Int) (tr : Option (Int × Int)) (t : Int) : Int :=
  match tr with
  | none => off0
  | some tr =>
    if off0 < tr.2 then
      if t < tr.1 then off0
      else if t < tr.1 + (tr.2 - off0) then min off0 tr.2
      else tr.2
    else
      if t < tr.1 - (off0 - tr.2) then off0
      else if t < tr.1 then min off0 tr.2
      else tr.2

/-- The utcoffset a zoneinfo aware datetime reports for wall second t of
day d (fold 0). -/
def zoneinfoOffsetAtWall (d t : Int) : Int :=
  foldZeroResolve (cphDayInfo d).1 (cphDayInfo d).2 t

/-- The offset pytz.localize attaches to wall second t of day d
(is_dst False). -/
def pytzOffsetAtWall (d t : Int) : Int :=
  isDstFalseResolve (cphDayInfo d).1 (cphDayInfo d).2 t

/-- _calculate_millis of custom_components/madvognen/sensor.py: combine
the date with 12:00 carrying ZoneInfo (fold 0), subtract the UTC epoch (an
aware subtraction compares the wall time minus its utcoffset against the
epoch), and scale total seconds to ms. -/
def calculate_millis (d : Int) : Int :=
  ((d * 86400 + 12 * 3600) - zoneinfoOffsetAtWall d (12 * 3600)) * 1000

/-- _calculate_millis of the top-level sensor.py: localize naive noon with
pytz (is_dst False), convert to UTC with astimezone (which preserves the
instant: wall time minus the attached offset), subtract the epoch, and
scale total seconds to ms. -/
def calculate_millis_pytz (d : Int) : Int :=
  ((d * 86400 + 12 * 3600) - pytzOffsetAtWall d (12 * 3600)) * 1000

/-! ### Week aggregation: _fetch_week_data -/

/-- The outcome of _fetch_day_menu for one day: either the parsed item list
or the message of the exception raised (network failure, non-200 status
raised as HTTP <status>, or a parse error). -/
def FetchRes := Except String (List String)

/-- One per-day record of the weekly dict built by _fetch_week_data.
Optional fields are keys absent from the corresponding Python dict. -/
structure DayRecord where
  date : String
  date_iso : Option String
  items : List String
  available : Bool
  note : Option String
  error : Option String
deriving DecidableEq

/-- The body of the per-day loop of _fetch_week_data: from the fetch
outcome and the running previous_menu, produce the day record and the new
previous_menu.  The duplicate branch stores date as day.isoformat() and
omits date_iso, exactly as the source does. -/
def weekStep (fmt : String) (day : Int) (prev : Option (List String))
    (res : FetchRes) : DayRecord × Option (List String) :=
  match res with
  | .ok menuItems =>
    if menuItems ≠ [] ∧ prev ≠ none ∧ prev ≠ some [] ∧ prev = some menuItems then
      (⟨isoDate day, none, menuItems, true,
        some "Might be repeated from previous day", none⟩, prev)
    else if menuItems ≠ [] then
      (⟨format_date fmt day, some (isoDate day), menuItems, true, none, none⟩,
       some menuItems)
    else
      (⟨format_date fmt day, some (isoDate day), [], false, none, none⟩, prev)
  | .error e =>
    (⟨format_date fmt day, some (isoDate day), [], false, none, some e⟩, prev)

/-- The per-day loop of _fetch_week_data, processing the fetch outcomes in
order.  The produced keys are the weekday names of consecutive dates and
hence pairwise distinct, so consecutive dict insertion is list append. -/
def weekLoop (fmt : String) (monday : Int) (off : Int)
    (prev : Option (List String)) : List FetchRes → List (String × DayRecord)
  | [] => []
  | r :: rs =>
    let day := monday + off
    let step := weekStep fmt day prev r
    (dayKey day, step.1) :: weekLoop fmt monday (off + 1) step.2 rs

/-- _fetch_week_data(monday), with the five per-day fetch outcomes supplied
as input: builds the weekly dict, then returns it only if some day is
available. -/
def fetch_week_data (fmt : String) (monday : Int) (fs : List FetchRes) :
    Option (List (String × DayRecord)) :=
  let weekData := weekLoop fmt monday 0 none fs
  if weekData.any (fun kv => kv.2.available) then some weekData else none

/-- Whether a fetch outcome is a success with a non-empty item list; such
days and only such days are recorded as available. -/
def okNonempty : FetchRes → Bool
  | .ok (_ :: _) => true
  | _ => false

/-- The first of two options that is populated, preferring the first. -/
def orDefault (o p : Option (List String)) : Option (List String) :=
  match o with
  | some x => some x
  | none => p

/-- The items of the last available record of a list of day records, i.e.
of the immediately preceding available day when applied to a prefix:
records further down the list take precedence. -/
def lastAvail : List (String × DayRecord) → Option (List String)
  | [] => none
  | kv :: rest =>
    orDefault (lastAvail rest) (if kv.2.available then some kv.2.items else none)

/-! ### The sensor state update: async_update -/

/-- A value of the attribute bag: a plain string (timestamps, error notes)
or a per-day record. -/
inductive AttrVal where
  | s (v : String)
  | day (r : DayRecord)
deriving DecidableEq

/-- The mutable part of the sensor entity: the scalar state (None until
first populated) and the attribute dict. -/
structure SensorState where
  state : Option String
  attrs : List (String × AttrVal)
deriving DecidableEq

/-- Python dict item assignment d[k] = v: replace in place if the key
exists, else append. -/
def dictSet (m : List (String × AttrVal)) (k : String) (v : AttrVal) :
    List (String × AttrVal) :=
  if m.any (fun kv => kv.1 = k) then
    m.map (fun kv => if kv.1 = k then (k, v) else kv)
  else m ++ [(k, v)]

/-- Python dict lookup on the attribute bag. -/
def attrLookup (m : List (String × AttrVal)) (k : String) : Option AttrVal :=
  match m with
  | [] => none
  | kv :: rest => if kv.1 = k then some kv.2 else attrLookup rest k

/-- async_update of custom_components/madvognen/sensor.py, after
_fetch_week_data returned weekData: on success merge the weekly dict into
the attributes, set last_updated and the descriptive state; on failure
either initialize to the unavailable sentinel (no prior state) or keep
state and attributes, refreshing last_updated and last_error. -/
def async_update (fmt : String) (monday currentDate : Int) (nowIso : String)
    (st : SensorState) (weekData : Option (List (String × DayRecord))) :
    SensorState :=
  match weekData with
  | some wd =>
    let attrs1 := wd.foldl (fun m kv => dictSet m kv.1 (AttrVal.day kv.2)) st.attrs
    let attrs2 := dictSet attrs1 "last_updated" (.s nowIso)
    { state := some (get_week_description fmt monday currentDate), attrs := attrs2 }
  | none =>
    if st.state = none then { state := some "unavailable", attrs := [] }
    else
      { state := st.state,
        attrs := dictSet (dictSet st.attrs "last_updated" (.s nowIso))
          "last_error" (.s "Failed to fetch menu data") }

/-- The previous_menu value carried out of one loop iteration, isolated
from the record construction: it only changes when a day with items is
recorded through the non-duplicate branch. -/
def stepPrev (prev : Option (List String)) (r : FetchRes) :
    Option (List String) :=
  match r with
  | .ok menuItems =>
    if menuItems ≠ [] ∧ prev ≠ none ∧ prev ≠ some [] ∧ prev = some menuItems then
      prev
    else if menuItems ≠ [] then some menuItems
    else prev
  | .error _ => prev

/-- The previous_menu value after processing a list of fetch outcomes. -/
def prevsAfter (prev : Option (List String)) (fs : List FetchRes) :
    Option (List String) :=
  fs.foldl stepPrev prev


/-- Payload shape for C3: an entry whose Navn value, when present, is a
string; all other entries contribute nothing and raise nothing. -/
def wfItem : Json → Bool
  | .obj ikvs =>
    match jsonLookup ikvs "Navn" with
    | none => true
    | some (.str _) => true
    | some _ => false
  | _ => true

/-- Payload shape for C3: a section whose varer value, when present, is a
list of well-formed entries.  Non-dict sections are allowed: the code
skips them and the claim gives them no names. -/
def wfSection : Json → Bool
  | .obj skvs =>
    match jsonLookup skvs "varer" with
    | none => true
    | some (.arr its) => its.all wfItem
    | some _ => false
  | _ => true

/-- The varer list of a section of a well-formed payload: absent varer and
non-dict sections hold no entries. -/
def sectionVarer (sec : Json) : List Json :=
  match sec with
  | .obj skvs =>
    match jsonLookup skvs "varer" with
    | some (.arr its) => its
    | _ => []
  | _ => []

/-- The contribution of one entry: its stripped Navn, when non-empty. -/
def navnOf (it : Json) : Option String :=
  match it with
  | .obj ikvs =>
    match jsonLookup ikvs "Navn" with
    | some (.str s) => if pyStrip s != "" then some (pyStrip s) else none
    | _ => none
  | _ => none

/-- The item list the claim describes: the trimmed non-empty Navn values
of all entries of the varer lists, in section order then entry order. -/
def specNames (sections : List (String × Json)) : List String :=
  (sections.map (fun sec => (sectionVarer sec.2).filterMap navnOf)).flatten


example : isoDate 20255 = "2025-06-16" := by decide
example : pyWeekday 20255 = 0 := by rfl
example : parse_day_data (.arr []) 20255 = .ok [] := by rfl

example :
    parse_day_data
      (.obj [("dato", .str "2025-06-16"),
             ("menuoverskrifter",
              .obj [("A", .obj [("varer", .arr [.obj [("Navn", .str "Frikadeller")]])])])])
      20255 = .ok ["Frikadeller"] := by rfl

example :
    parse_day_data (.obj [("dato", .str "2025-06-16")]) 20256 = .ok [] := by rfl

/-! ## Helper lemmas -/

/-- The availability of the record produced for one day is exactly the
success-with-items condition on its fetch outcome. -/
theorem weekStep_available (fmt : String) (day : Int)
    (prev : Option (List String)) (r : FetchRes) :
    (weekStep fmt day prev r).1.available = okNonempty r := by
  match r with
  | .ok [] => simp [weekStep, okNonempty]
  | .ok (x :: xs) =>
    simp only [weekStep, okNonempty]
    split
    · rfl
    · split
      · rfl
      · simp_all
  | .error e => simp [weekStep, okNonempty]

/-- The records of a week are as many as the fetch outcomes: a failing day
never cuts the loop short. -/
theorem weekLoop_length (fmt : String) (monday : Int) :
    ∀ (fs : List FetchRes) (off : Int) (prev : Option (List String)),
      (weekLoop fmt monday off prev fs).length = fs.length := by
  intro fs
  induction fs with
  | nil => intro off prev; rfl
  | cons r rs ih => intro off prev; simp [weekLoop, ih]

/-- Some record of the week is available exactly when some fetch outcome
succeeded with items. -/
theorem weekLoop_any (fmt : String) (monday : Int) :
    ∀ (fs : List FetchRes) (off : Int) (prev : Option (List String)),
      (weekLoop fmt monday off prev fs).any (fun kv => kv.2.available)
        = fs.any okNonempty := by
  intro fs
  induction fs with
  | nil => intro off prev; rfl
  | cons r rs ih =>
    intro off prev
    simp only [weekLoop, List.any_cons, ih, weekStep_available]

/-! ## Claim C1: week selection -/

/-- C1: for every local date and time of day, _get_relevant_monday returns
the current week Monday on Monday through Thursday at any time and on
Friday strictly before 14:00, and the following week Monday on Friday at
or after 14:00 and on Saturday and Sunday; the result is always a Monday
and never earlier than the Monday of the input week. -/
theorem get_relevant_monday_spec (d : Int) (t : Nat) :
    (pyWeekday d ≤ 3 → get_relevant_monday d t = d - pyWeekday d) ∧
    (pyWeekday d = 4 → t < 14 * 3600 → get_relevant_monday d t = d - pyWeekday d) ∧
    (pyWeekday d = 4 → 14 * 3600 ≤ t →
      get_relevant_monday d t = d - pyWeekday d + 7) ∧
    (5 ≤ pyWeekday d → get_relevant_monday d t = d - pyWeekday d + 7) ∧
    pyWeekday (get_relevant_monday d t) = 0 ∧
    d - pyWeekday d ≤ get_relevant_monday d t := by
  simp only [get_relevant_monday, pyWeekday]
  split_ifs <;> refine ⟨?_, ?_, ?_, ?_, ?_, ?_⟩ <;> intros <;> omega

/-- Witness for C1: on Friday 2025-06-20 at exactly 14:00 the selector
jumps to the next Monday, 2025-06-23. -/
theorem get_relevant_monday_spec_witness :
    get_relevant_monday 20259 50400 = 20262 := by
  have h := (get_relevant_monday_spec 20259 50400).2.2.1 (by decide) (by decide)
  simpa using h

/-! ## Claim C8: the two _calculate_millis variants -/

set_option maxHeartbeats 1600000 in
/-- Every summer-time start of the zone happens at wall clock 0:00, 2:00
or 23:00. -/
theorem cphStartEvent_wall (y p q : Int) (h : cphStartEvent y = some (p, q)) :
    q = 0 ∨ q = 7200 ∨ q = 82800 := by
  unfold cphStartEvent at h
  split_ifs at h <;>
    first
      | exact Option.noConfusion h
      | (simp only [Option.some.injEq, Prod.mk.injEq] at h
         omega)

set_option maxHeartbeats 1600000 in
/-- Every summer-time end of the zone happens at wall clock 3:00 or
23:00. -/
theorem cphEndEvent_wall (y p q : Int) (h : cphEndEvent y = some (p, q)) :
    q = 10800 ∨ q = 82800 := by
  unfold cphEndEvent at h
  split_ifs at h <;>
    first
      | exact Option.noConfusion h
      | (simp only [Option.some.injEq, Prod.mk.injEq] at h
         omega)

/-- The possible day infos: no transition, the 1894 change to CET, a
summer-time start (3600 to 7200 at wall second 0, 7200 or 82800), or a
summer-time end (7200 to 3600 at wall second 10800 or 82800). -/
theorem cphDayInfo_cases (d : Int) :
    (cphDayInfo d).2 = none ∨
    cphDayInfo d = (3020, some (0, 3600)) ∨
    (∃ w, cphDayInfo d = (3600, some (w, 7200)) ∧
      (w = 0 ∨ w = 7200 ∨ w = 82800)) ∨
    (∃ w, cphDayInfo d = (7200, some (w, 3600)) ∧
      (w = 10800 ∨ w = 82800)) := by
  unfold cphDayInfo
  by_cases hlt : d < daysFromCivil 1894 1 1
  · rw [if_pos hlt]
    exact Or.inl rfl
  · rw [if_neg hlt]
    by_cases heq : d = daysFromCivil 1894 1 1
    · rw [if_pos heq]
      exact Or.inr (Or.inl rfl)
    · rw [if_neg heq]
      rcases hs : cphStartEvent (civilFromDays d).1 with _ | ⟨sd, sw⟩ <;>
        rcases he : cphEndEvent (civilFromDays d).1 with _ | ⟨ed, ew⟩ <;>
          simp only [hs, he]
      · left
        trivial
      · split_ifs with hd1 hd2
        · exact Or.inr (Or.inr (Or.inr ⟨ew, by trivial, cphEndEvent_wall _ ed ew he⟩))
        · left
          trivial
        · left
          trivial
      · split_ifs with hd1 hd2
        · exact Or.inr (Or.inr (Or.inl ⟨sw, by trivial, cphStartEvent_wall _ sd sw hs⟩))
        · left
          trivial
        · left
          trivial
      · split_ifs with hd1 hd2 hd3
        · exact Or.inr (Or.inr (Or.inl ⟨sw, by trivial, cphStartEvent_wall _ sd sw hs⟩))
        · exact Or.inr (Or.inr (Or.inr ⟨ew, by trivial, cphEndEvent_wall _ ed ew he⟩))
        · left
          trivial
        · left
          trivial

/-- The two wall-resolution policies agree at noon: no transition of this
zone happens within an hour of wall noon, so noon is never ambiguous and
never missing and both libraries report the same offset for it. -/
theorem offset_policies_agree_at_noon (d : Int) :
    zoneinfoOffsetAtWall d 43200 = pytzOffsetAtWall d 43200 := by
  unfold zoneinfoOffsetAtWall pytzOffsetAtWall
  rcases cphDayInfo_cases d with h | h | ⟨w, h, hw⟩ | ⟨w, h, hw⟩
  · rw [h]
    rfl
  · rw [h]
    decide
  · rw [h]
    rcases hw with rfl | rfl | rfl <;> decide
  · rw [h]
    rcases hw with rfl | rfl <;> decide

/-- C8: the zoneinfo-based and the pytz-based _calculate_millis agree on
every date, and the common value is the epoch milliseconds of local noon
in Europe/Copenhagen: a date under summer time (noon offset +2:00) maps to
10:00 UTC, a date under standard time (noon offset +1:00) to 11:00 UTC. -/
theorem calculate_millis_spec :
    (∀ d : Int, calculate_millis d = calculate_millis_pytz d) ∧
    (∀ d : Int, zoneinfoOffsetAtWall d (12 * 3600) = 7200 →
      calculate_millis d = (d * 86400 + 10 * 3600) * 1000) ∧
    (∀ d : Int, zoneinfoOffsetAtWall d (12 * 3600) = 3600 →
      calculate_millis d = (d * 86400 + 11 * 3600) * 1000) := by
  refine ⟨fun d => ?_, fun d h => ?_, fun d h => ?_⟩
  · unfold calculate_millis calculate_millis_pytz
    rw [show (12 : Int) * 3600 = 43200 by norm_num,
      offset_policies_agree_at_noon d]
  · unfold calculate_millis
    rw [h]
    ring
  · unfold calculate_millis
    rw [h]
    ring

/-- Witness for C8, checked against the zone data: 2025-06-16 is under
summer time (10:00 UTC), while 2025-12-22, 1975-07-15 (the zone had no
summer time 1949-1979) and 1990-10-10 (summer time ended on the last
Sunday of September through 1995) are under standard time (11:00 UTC),
and the two variants agree there. -/
theorem calculate_millis_spec_witness :
    calculate_millis 20255 = calculate_millis_pytz 20255 ∧
    calculate_millis 20255 = (20255 * 86400 + 10 * 3600) * 1000 ∧
    calculate_millis 20444 = (20444 * 86400 + 11 * 3600) * 1000 ∧
    calculate_millis 2021 = (2021 * 86400 + 11 * 3600) * 1000 ∧
    calculate_millis 7587 = (7587 * 86400 + 11 * 3600) * 1000 :=
  ⟨calculate_millis_spec.1 20255,
   calculate_millis_spec.2.1 20255 (by decide),
   calculate_millis_spec.2.2 20444 (by decide),
   calculate_millis_spec.2.2 2021 (by decide),
   calculate_millis_spec.2.2 7587 (by decide)⟩

/-! ## Claim C2: date-echo mismatch -/

/-- C2: for every requested date and JSON-object payload whose dato field
is not the requested date rendered as YYYY-MM-DD (a missing dato included),
the parse returns an empty item list without raising, and the weekly
aggregation records a day fetched as an empty list with available false. -/
theorem parse_day_data_mismatch (d : Int) (kvs : List (String × Json))
    (h : isStrEq (jsonLookup kvs "dato") (isoDate d) = false) :
    parse_day_data (.obj kvs) d = .ok [] ∧
    ∀ (fmt : String) (day : Int) (prev : Option (List String)),
      (weekStep fmt day prev (.ok [])).1.available = false := by
  constructor
  · simp [parse_day_data, h]
  · intro fmt day prev
    simp [weekStep]

/-- Witness for C2, the example of the spec: a payload answering
2025-06-16 to a request for 2025-06-17 parses to the empty list, and such
a day is recorded unavailable. -/
theorem parse_day_data_mismatch_witness :
    parse_day_data (.obj [("dato", .str "2025-06-16")]) 20256 = .ok [] ∧
    (weekStep "danish" 20256 none (.ok [])).1.available = false := by
  have h := parse_day_data_mismatch 20256 [("dato", .str "2025-06-16")] (by decide)
  exact ⟨h.1, h.2 "danish" 20256 none⟩

/-! ## Claim C9: non-object payloads -/

/-- Counterexample to C9: a response body that parses to the JSON list []
does not make the day fetch fail; _parse_day_data returns the empty item
list with no exception. -/
theorem parse_day_data_nonobj_cx :
    parse_day_data (Json.arr []) 20255 = .ok [] := by rfl

/-- C9 as amended: a body parsing to a non-object JSON value yields an
empty item list without error, while structurally unexpected content
inside an object payload can still raise: with a matching date echo, a
truthy non-object menuoverskrifter field raises AttributeError at its
.values() call (caught by the aggregator and downgraded like every other
per-day exception). -/
theorem parse_day_data_invalid_shape :
    (∀ (j : Json) (d : Int), j.isObj = false → parse_day_data j d = .ok []) ∧
    (∀ (d : Int) (kvs : List (String × Json)) (m : Json),
      jsonLookup kvs "dato" = some (.str (isoDate d)) →
      jsonLookup kvs "menuoverskrifter" = some m →
      pyTruthy m = true → m.isObj = false →
      parse_day_data (.obj kvs) d =
        .error "AttributeError: object has no attribute values") := by
  constructor
  · intro j d h
    cases j <;> first
      | rfl
      | simp [Json.isObj] at h
  · intro d kvs m hdato hmenu htru hobj
    have hecho : isStrEq (jsonLookup kvs "dato") (isoDate d) = true := by
      rw [hdato]
      simp [isStrEq]
    simp only [parse_day_data, hecho, Bool.not_true, Bool.false_eq_true,
      if_false, hmenu, Option.getD_some, htru, Bool.not_true, Bool.false_eq_true,
      if_false]
    cases m <;> first
      | rfl
      | simp [Json.isObj] at hobj

/-- Witness for the amended C9: a JSON string body parses to no items and
no error, and an object payload for 2025-06-16 whose menuoverskrifter is
the non-empty list ["x"] raises AttributeError. -/
theorem parse_day_data_invalid_shape_witness :
    parse_day_data (Json.str "oops") 20255 = .ok [] ∧
    parse_day_data
      (.obj [("dato", .str "2025-06-16"),
             ("menuoverskrifter", .arr [.str "x"])]) 20255 =
      .error "AttributeError: object has no attribute values" :=
  ⟨parse_day_data_invalid_shape.1 (Json.str "oops") 20255 rfl,
   parse_day_data_invalid_shape.2 20255
     [("dato", .str "2025-06-16"), ("menuoverskrifter", .arr [.str "x"])]
     (.arr [.str "x"]) (by rfl) rfl (by rfl) rfl⟩

/-! ## Claim C4: null result exactly on a fully unavailable week -/

/-- C4: the week aggregation returns none exactly when none of the five
fetched weekdays succeeded with a non-empty item list (the availability
condition), and every returned week contains an available day record. -/
theorem fetch_week_data_none_iff (fmt : String) (monday : Int)
    (fs : List FetchRes) (_h5 : fs.length = 5) :
    (fetch_week_data fmt monday fs = none ↔ ∀ r ∈ fs, okNonempty r = false) ∧
    (∀ wd, fetch_week_data fmt monday fs = some wd →
      ∃ kv ∈ wd, kv.2.available = true) := by
  constructor
  · by_cases h : fs.any okNonempty = true
    · simp only [fetch_week_data, weekLoop_any, h, if_true]
      simp only [List.any_eq_true] at h
      obtain ⟨r, hr, hok⟩ := h
      constructor
      · intro hcon; exact absurd hcon (by simp)
      · intro hall; exact absurd (hall r hr) (by simp [hok])
    · rw [Bool.not_eq_true] at h
      simp only [fetch_week_data, weekLoop_any, h, if_false]
      simp only [List.any_eq_false] at h
      constructor
      · intro _ r hr; exact Bool.not_eq_true _ |>.mp (h r hr)
      · intro _; rfl
  · intro wd hwd
    by_cases h : fs.any okNonempty = true
    · simp only [fetch_week_data, weekLoop_any, h, if_true, Option.some.injEq] at hwd
      subst hwd
      have h2 : (weekLoop fmt monday 0 none fs).any (fun kv => kv.2.available) = true := by
        rw [weekLoop_any]; exact h
      simpa [List.any_eq_true] using h2
    · rw [Bool.not_eq_true] at h
      simp [fetch_week_data, weekLoop_any, h] at hwd

/-- Witness for C4: a week where the only fetch outcomes are an HTTP
error and four empty days aggregates to none. -/
theorem fetch_week_data_none_iff_witness :
    fetch_week_data "iso" 20255
      [.error "HTTP 500", .ok [], .ok [], .ok [], .ok []] = none := by
  refine (fetch_week_data_none_iff "iso" 20255
    [.error "HTTP 500", .ok [], .ok [], .ok [], .ok []] rfl).1.mpr ?_
  intro r hr
  fin_cases hr <;> rfl

theorem weekStep_snd (fmt : String) (day : Int) (prev : Option (List String))
    (r : FetchRes) : (weekStep fmt day prev r).2 = stepPrev prev r := by
  match r with
  | .ok menuItems =>
    simp only [weekStep, stepPrev]
    split
    · rfl
    · split <;> rfl
  | .error e => rfl

/-- The previous_menu going out of an iteration equals the items of the
record just produced when that record is available, and is unchanged
otherwise. -/
theorem stepPrev_available (fmt : String) (day : Int)
    (prev : Option (List String)) (r : FetchRes) :
    stepPrev prev r =
      (if (weekStep fmt day prev r).1.available then
        some (weekStep fmt day prev r).1.items else prev) := by
  match r with
  | .ok menuItems =>
    simp only [weekStep, stepPrev]
    split
    · next h => simp [h.2.2.2]
    · split <;> simp_all [weekStep]
  | .error e => rfl

theorem orDefault_assoc (a b c : Option (List String)) :
    orDefault (orDefault a b) c = orDefault a (orDefault b c) := by
  cases a <;> rfl

theorem orDefault_none (a : Option (List String)) : orDefault a none = a := by
  cases a <;> rfl

/-- The previous_menu after a run started from prev is the items of the
last available produced record, falling back to prev. -/
theorem prevsAfter_lastAvail (fmt : String) (monday : Int) :
    ∀ (fs : List FetchRes) (off : Int) (prev : Option (List String)),
      prevsAfter prev fs =
        orDefault (lastAvail (weekLoop fmt monday off prev fs)) prev := by
  intro fs
  induction fs with
  | nil => intro off prev; rfl
  | cons r rs ih =>
    intro off prev
    have h1 : prevsAfter prev (r :: rs) = prevsAfter (stepPrev prev r) rs := rfl
    rw [h1, ih (off + 1) (stepPrev prev r)]
    have h2 : weekLoop fmt monday off prev (r :: rs) =
        (dayKey (monday + off), (weekStep fmt (monday + off) prev r).1) ::
          weekLoop fmt monday (off + 1) (weekStep fmt (monday + off) prev r).2 rs := rfl
    rw [h2, weekStep_snd]
    show _ = orDefault (orDefault _ _) prev
    rw [orDefault_assoc]
    congr 1
    rw [stepPrev_available fmt (monday + off) prev r]
    split <;> rfl

/-- Taking a prefix of the produced records is running the loop on the
prefix of the outcomes. -/
theorem weekLoop_take (fmt : String) (monday : Int) :
    ∀ (fs : List FetchRes) (i : Nat) (off : Int) (prev : Option (List String)),
      (weekLoop fmt monday off prev fs).take i =
        weekLoop fmt monday off prev (fs.take i) := by
  intro fs
  induction fs with
  | nil => intro i off prev; simp [weekLoop]
  | cons r rs ih =>
    intro i off prev
    cases i with
    | zero => rfl
    | succ n =>
      simp only [weekLoop, List.take_succ_cons]
      rw [ih]

/-- The record produced for the day at index i: the loop applied to the
fetch outcome at i, with the previous_menu accumulated over the first i
outcomes. -/
theorem weekLoop_get (fmt : String) (monday : Int) :
    ∀ (fs : List FetchRes) (i : Nat) (off : Int) (prev : Option (List String))
      (r : FetchRes), fs[i]? = some r →
      (weekLoop fmt monday off prev fs)[i]? =
        some (dayKey (monday + off + i),
          (weekStep fmt (monday + off + i) (prevsAfter prev (fs.take i)) r).1) := by
  intro fs
  induction fs with
  | nil => intro i off prev r hr; simp at hr
  | cons a rs ih =>
    intro i off prev r hr
    cases i with
    | zero =>
      simp only [List.getElem?_cons_zero, Option.some.injEq] at hr
      subst hr
      simp [weekLoop, prevsAfter]
    | succ n =>
      simp only [List.getElem?_cons_succ] at hr
      have h2 : (weekLoop fmt monday off prev (a :: rs))[n + 1]? =
          (weekLoop fmt monday (off + 1) (weekStep fmt (monday + off) prev a).2 rs)[n]? := by
        simp [weekLoop]
      rw [h2, weekStep_snd, ih n (off + 1) (stepPrev prev a) r hr]
      have h3 : monday + (off + 1) + (n : Int) = monday + off + ((n : Nat) + 1 : Nat) := by
        push_cast; ring
      have h4 : prevsAfter (stepPrev prev a) (rs.take n) =
          prevsAfter prev ((a :: rs).take (n + 1)) := rfl
      rw [h3, h4]

/-! ## Claim C5: per-day error tolerance -/

/-- Replacing an erroring day by an empty success changes no other day:
both leave previous_menu untouched, so every other record is untouched. -/
theorem weekLoop_set_err (fmt : String) (monday : Int) :
    ∀ (fs : List FetchRes) (i : Nat) (off : Int) (prev : Option (List String))
      (e : String), fs[i]? = some (.error e) →
      ∀ j, j ≠ i →
        (weekLoop fmt monday off prev (fs.set i (.ok [])))[j]? =
          (weekLoop fmt monday off prev fs)[j]? := by
  intro fs
  induction fs with
  | nil => intro i off prev e hi j hj; simp at hi
  | cons a rs ih =>
    intro i off prev e hi j hj
    cases i with
    | zero =>
      simp only [List.getElem?_cons_zero, Option.some.injEq] at hi
      subst hi
      cases j with
      | zero => exact absurd rfl hj
      | succ m =>
        simp only [List.set_cons_zero, weekLoop, List.getElem?_cons_succ,
          weekStep_snd]
        have h1 : stepPrev prev (.ok []) = prev := by simp [stepPrev]
        have h2 : stepPrev prev (.error e) = prev := rfl
        rw [h1, h2]
    | succ n =>
      simp only [List.getElem?_cons_succ] at hi
      cases j with
      | zero => simp [List.set_cons_succ, weekLoop]
      | succ m =>
        have hm : m ≠ n := fun hc => hj (by rw [hc])
        simp only [List.set_cons_succ, weekLoop, List.getElem?_cons_succ,
          weekStep_snd]
        exact ih n (off + 1) (stepPrev prev a) e hi m hm

/-- C5: when the fetch for one weekday errors, that day is recorded as
unavailable with the error message in its error field, all other days are
still processed and their records do not depend on the failure, and a week
record is still returned as soon as some other day is available. -/
theorem fetch_week_error_day (fmt : String) (monday : Int) (fs : List FetchRes)
    (i : Nat) (e : String) (hi : fs[i]? = some (.error e)) :
    (weekLoop fmt monday 0 none fs).length = fs.length ∧
    (weekLoop fmt monday 0 none fs)[i]? =
      some (dayKey (monday + i),
        ⟨format_date fmt (monday + i), some (isoDate (monday + i)), [], false,
          none, some e⟩) ∧
    (∀ j, j ≠ i →
      (weekLoop fmt monday 0 none (fs.set i (.ok [])))[j]? =
        (weekLoop fmt monday 0 none fs)[j]?) ∧
    ((∃ r ∈ fs, okNonempty r = true) →
      fetch_week_data fmt monday fs = some (weekLoop fmt monday 0 none fs)) := by
  refine ⟨weekLoop_length fmt monday fs 0 none, ?_, ?_, ?_⟩
  · have h := weekLoop_get fmt monday fs i 0 none (.error e) hi
    rw [h]
    have h0 : monday + 0 + (i : Int) = monday + i := by ring
    rw [h0]
    rfl
  · exact fun j hj => weekLoop_set_err fmt monday fs i 0 none e hi j hj
  · rintro ⟨r, hr, hok⟩
    have hany : fs.any okNonempty = true := List.any_eq_true.mpr ⟨r, hr, hok⟩
    simp [fetch_week_data, weekLoop_any, hany]

/-- Witness for C5, the example of the spec: HTTP 500 on Thursday only
still yields a week record, with Thursday unavailable and annotated. -/
theorem fetch_week_error_day_witness :
    (weekLoop "iso" 20255 0 none
      [.ok ["A"], .ok ["B"], .ok ["C"], .error "HTTP 500", .ok ["D"]])[3]? =
      some (dayKey (20255 + (3 : Nat)),
        ⟨format_date "iso" (20255 + (3 : Nat)),
          some (isoDate (20255 + (3 : Nat))), [], false, none,
          some "HTTP 500"⟩) ∧
    fetch_week_data "iso" 20255
        [.ok ["A"], .ok ["B"], .ok ["C"], .error "HTTP 500", .ok ["D"]] =
      some (weekLoop "iso" 20255 0 none
        [.ok ["A"], .ok ["B"], .ok ["C"], .error "HTTP 500", .ok ["D"]]) := by
  have h := fetch_week_error_day "iso" 20255
    [.ok ["A"], .ok ["B"], .ok ["C"], .error "HTTP 500", .ok ["D"]] 3
    "HTTP 500" rfl
  exact ⟨h.2.1, h.2.2.2 ⟨.ok ["A"], by simp, rfl⟩⟩

/-! ## Claim C6: duplicate-fallback detection -/

/-- C6: a day fetched with a non-empty item list is always recorded
available; it carries the diagnostic note exactly when its items equal the
item list of the immediately preceding available day of the same pass
(the last available record before it), and carries no note otherwise. -/
theorem week_duplicate_note (fmt : String) (monday : Int) (fs : List FetchRes)
    (i : Nat) (items : List String) (hi : fs[i]? = some (.ok items))
    (hne : items ≠ []) :
    ∃ r : String × DayRecord,
      (weekLoop fmt monday 0 none fs)[i]? = some r ∧
      r.2.available = true ∧ r.2.items = items ∧
      r.2.note =
        (if lastAvail ((weekLoop fmt monday 0 none fs).take i) = some items
          then some "Might be repeated from previous day" else none) := by
  have hg := weekLoop_get fmt monday fs i 0 none (.ok items) hi
  have hprev : prevsAfter none (fs.take i) =
      lastAvail ((weekLoop fmt monday 0 none fs).take i) := by
    rw [weekLoop_take fmt monday fs i 0 none,
      prevsAfter_lastAvail fmt monday (fs.take i) 0 none, orDefault_none]
  refine ⟨_, hg, ?_⟩
  rw [← hprev]
  by_cases hdup : prevsAfter none (fs.take i) = some items
  · have hcond : items ≠ [] ∧ prevsAfter none (fs.take i) ≠ none ∧
        prevsAfter none (fs.take i) ≠ some [] ∧
        prevsAfter none (fs.take i) = some items :=
      ⟨hne, by simp [hdup], by simp [hdup, hne], hdup⟩
    simp only [weekStep, if_pos hcond, if_pos hdup]
    refine ⟨?_, ?_, ?_⟩ <;> trivial
  · have hcond : ¬(items ≠ [] ∧ prevsAfter none (fs.take i) ≠ none ∧
        prevsAfter none (fs.take i) ≠ some [] ∧
        prevsAfter none (fs.take i) = some items) :=
      fun h => hdup h.2.2.2
    simp only [weekStep, if_neg hcond, if_pos hne, if_neg hdup]
    refine ⟨?_, ?_, ?_⟩ <;> trivial

/-- Witness for C6: Tuesday echoes Monday item-for-item and is flagged. -/
theorem week_duplicate_note_witness :
    ∃ r : String × DayRecord,
      (weekLoop "danish" 20255 0 none
        [.ok ["A"], .ok ["A"], .ok ["B"], .error "x", .ok []])[1]? = some r ∧
      r.2.available = true ∧ r.2.items = ["A"] ∧
      r.2.note =
        (if lastAvail ((weekLoop "danish" 20255 0 none
            [.ok ["A"], .ok ["A"], .ok ["B"], .error "x", .ok []]).take 1) =
              some ["A"]
          then some "Might be repeated from previous day" else none) :=
  week_duplicate_note "danish" 20255
    [.ok ["A"], .ok ["A"], .ok ["B"], .error "x", .ok []] 1 ["A"] rfl
    (by simp)

/-! ## Claim C10: date rendering of the per-day records -/

/-- Counterexample to C10: with date_format danish, a returned week whose
Tuesday is flagged as a duplicate of Monday carries Tuesday's date as the
ISO string 2025-06-17, not as the configured rendering 17/06/2025. -/
theorem fetch_week_dup_date_cx :
    ((fetch_week_data "danish" 20255
        [.ok ["Frikadeller"], .ok ["Frikadeller"], .ok [], .ok [], .ok []]).getD
          [])[1]? =
      some ("tuesday",
        ⟨"2025-06-17", none, ["Frikadeller"], true,
          some "Might be repeated from previous day", none⟩) ∧
    format_date "danish" 20256 = "17/06/2025" ∧
    ("2025-06-17" : String) ≠ "17/06/2025" := by
  refine ⟨by rfl, by rfl, by decide⟩

/-- C10 as amended: every per-day record of a returned week carries a date
field; on records without the duplicate note it is rendered per the
configured date_format, while duplicate-flagged records carry the ISO
rendering instead (these coincide only for the iso format). -/
theorem fetch_week_date_rendering (fmt : String) (monday : Int)
    (fs : List FetchRes) (wd : List (String × DayRecord))
    (h : fetch_week_data fmt monday fs = some wd) (i : Nat)
    (r : String × DayRecord) (hr : wd[i]? = some r) :
    r.2.date = (if r.2.note = none then format_date fmt (monday + i)
      else isoDate (monday + i)) := by
  have hwd : wd = weekLoop fmt monday 0 none fs := by
    by_cases hany : (weekLoop fmt monday 0 none fs).any
        (fun kv => kv.2.available) = true
    · rw [fetch_week_data] at h
      simp only [hany, if_true, Option.some.injEq] at h
      exact h.symm
    · rw [Bool.not_eq_true] at hany
      rw [fetch_week_data] at h
      simp [hany] at h
  subst hwd
  have hmem : i < fs.length := by
    by_contra hge
    push_neg at hge
    have hnone : (weekLoop fmt monday 0 none fs)[i]? = none := by
      apply List.getElem?_eq_none
      rw [weekLoop_length]
      exact hge
    rw [hnone] at hr
    cases hr
  have hr0 : fs[i]? = some (fs.get ⟨i, hmem⟩) := by
    rw [List.getElem?_eq_getElem hmem]
    rfl
  have hg := weekLoop_get fmt monday fs i 0 none (fs.get ⟨i, hmem⟩) hr0
  rw [hg] at hr
  simp only [Option.some.injEq] at hr
  subst hr
  rw [show monday + 0 + (i : Int) = monday + (i : Int) by ring]
  rcases hres : fs.get ⟨i, hmem⟩ with e | (_ | ⟨x, xs⟩)
  · simp [weekStep]
  · simp [weekStep]
  · simp only [weekStep]
    split
    · simp
    · split
      · simp_all
      · simp

/-- Witness for the amended C10: in the counterexample week, Monday (no
note) is rendered per the danish format and Tuesday (noted) in ISO. -/
theorem fetch_week_date_rendering_witness :
    ∃ r : String × DayRecord,
      ((fetch_week_data "danish" 20255
        [.ok ["Frikadeller"], .ok ["Frikadeller"], .ok [], .ok [], .ok []]).getD
          [])[0]? = some r ∧
      r.2.date = (if r.2.note = none then format_date "danish" (20255 + (0 : Nat))
        else isoDate (20255 + (0 : Nat))) := by
  refine ⟨_, rfl, ?_⟩
  exact fetch_week_date_rendering "danish" 20255
    [.ok ["Frikadeller"], .ok ["Frikadeller"], .ok [], .ok [], .ok []]
    _ rfl 0 _ rfl

/-! ## Claim C7: state retention on failed updates -/

theorem attrLookup_cons (kv : String × AttrVal) (rest : List (String × AttrVal))
    (k : String) :
    attrLookup (kv :: rest) k =
      if kv.1 = k then some kv.2 else attrLookup rest k := rfl

theorem lookup_map_set (k : String) (v : AttrVal) :
    ∀ m : List (String × AttrVal), m.any (fun kv => kv.1 = k) = true →
      attrLookup (m.map (fun kv => if kv.1 = k then (k, v) else kv)) k = some v := by
  intro m
  induction m with
  | nil => intro h; simp at h
  | cons kv rest ih =>
    intro h
    by_cases h1 : kv.1 = k
    · simp [attrLookup_cons, h1]
    · rw [List.map_cons, if_neg h1, attrLookup_cons, if_neg h1]
      apply ih
      simpa [List.any_cons, h1] using h

theorem lookup_append_set (k : String) (v : AttrVal) :
    ∀ m : List (String × AttrVal), m.any (fun kv => kv.1 = k) = false →
      attrLookup (m ++ [(k, v)]) k = some v := by
  intro m
  induction m with
  | nil => simp [attrLookup_cons]
  | cons kv rest ih =>
    intro h
    simp only [List.any_cons, Bool.or_eq_false_iff, decide_eq_false_iff_not] at h
    rw [List.cons_append, attrLookup_cons, if_neg h.1]
    exact ih (by simpa using h.2)

theorem lookup_map_ne (k k2 : String) (v : AttrVal) (h : k2 ≠ k) :
    ∀ m : List (String × AttrVal),
      attrLookup (m.map (fun kv => if kv.1 = k then (k, v) else kv)) k2 =
        attrLookup m k2 := by
  intro m
  induction m with
  | nil => rfl
  | cons kv rest ih =>
    by_cases h1 : kv.1 = k
    · rw [List.map_cons, if_pos h1, attrLookup_cons, attrLookup_cons]
      have hk : ¬ (k, v).1 = k2 := by simpa using fun hc => h hc.symm
      rw [if_neg hk, if_neg (by rw [h1]; simpa using fun hc => h hc.symm), ih]
    · rw [List.map_cons, if_neg h1, attrLookup_cons, attrLookup_cons, ih]

theorem lookup_append_ne (k k2 : String) (v : AttrVal) (h : k2 ≠ k) :
    ∀ m : List (String × AttrVal),
      attrLookup (m ++ [(k, v)]) k2 = attrLookup m k2 := by
  intro m
  induction m with
  | nil =>
    simp only [List.nil_append, attrLookup_cons]
    rw [if_neg (by simpa using fun hc => h hc.symm)]
  | cons kv rest ih =>
    rw [List.cons_append, attrLookup_cons, attrLookup_cons, ih]

/-- Setting a key makes it present with the new value. -/
theorem attrLookup_dictSet_self (m : List (String × AttrVal)) (k : String)
    (v : AttrVal) : attrLookup (dictSet m k v) k = some v := by
  unfold dictSet
  split
  · next htrue => exact lookup_map_set k v m htrue
  · next hfalse =>
      exact lookup_append_set k v m (by rwa [Bool.not_eq_true] at hfalse)

/-- Setting a key leaves every other key unchanged. -/
theorem attrLookup_dictSet_ne (m : List (String × AttrVal)) (k k2 : String)
    (v : AttrVal) (h : k2 ≠ k) :
    attrLookup (dictSet m k v) k2 = attrLookup m k2 := by
  unfold dictSet
  split
  · exact lookup_map_ne k k2 v h m
  · exact lookup_append_ne k k2 v h m

/-- C7: when the aggregation yields none and the sensor state is already
populated, async_update keeps the state value and every other attribute
untouched and only refreshes last_updated and last_error; when no state
exists yet, it sets the unavailable sentinel and clears the attributes. -/
theorem async_update_retention (fmt : String) (monday currentDate : Int)
    (nowIso : String) (st : SensorState) :
    (∀ s, st.state = some s →
      (async_update fmt monday currentDate nowIso st none).state = some s ∧
      (∀ k, k ≠ "last_updated" → k ≠ "last_error" →
        attrLookup (async_update fmt monday currentDate nowIso st none).attrs k =
          attrLookup st.attrs k) ∧
      attrLookup (async_update fmt monday currentDate nowIso st none).attrs
        "last_updated" = some (.s nowIso) ∧
      attrLookup (async_update fmt monday currentDate nowIso st none).attrs
        "last_error" = some (.s "Failed to fetch menu data")) ∧
    (st.state = none →
      async_update fmt monday currentDate nowIso st none =
        ⟨some "unavailable", []⟩) := by
  constructor
  · intro s hs
    have hne : ¬ st.state = none := by rw [hs]; simp
    simp only [async_update, if_neg hne]
    refine ⟨hs, ?_, ?_, ?_⟩
    · intro k hk1 hk2
      rw [attrLookup_dictSet_ne _ _ _ _ hk2, attrLookup_dictSet_ne _ _ _ _ hk1]
    · rw [attrLookup_dictSet_ne _ _ _ _ (by decide), attrLookup_dictSet_self]
    · rw [attrLookup_dictSet_self]
  · intro hs
    simp [async_update, hs]

/-- Witness for C7: a populated sensor hit by a failed cycle keeps its
state and its monday attribute, and gains the error annotations. -/
theorem async_update_retention_witness :
    (async_update "danish" 20255 20257 "2025-06-18T12:00:00+02:00"
      ⟨some "This week (16/06/2025)", [("monday", .s "menu")]⟩ none).state =
        some "This week (16/06/2025)" ∧
    attrLookup (async_update "danish" 20255 20257 "2025-06-18T12:00:00+02:00"
      ⟨some "This week (16/06/2025)", [("monday", .s "menu")]⟩ none).attrs
        "monday" = some (.s "menu") ∧
    attrLookup (async_update "danish" 20255 20257 "2025-06-18T12:00:00+02:00"
      ⟨some "This week (16/06/2025)", [("monday", .s "menu")]⟩ none).attrs
        "last_error" = some (.s "Failed to fetch menu data") := by
  have h := (async_update_retention "danish" 20255 20257
    "2025-06-18T12:00:00+02:00"
    ⟨some "This week (16/06/2025)", [("monday", .s "menu")]⟩).1
    "This week (16/06/2025)" rfl
  exact ⟨h.1, by rw [h.2.1 "monday" (by decide) (by decide)]; rfl, h.2.2.2⟩

/-! ## Claim C3: matching-date payloads parse to the section names -/

/-- On a well-formed payload the counting pass raises nothing and counts
the entries of every varer list. -/
theorem countItems_wf :
    ∀ sections : List (String × Json),
      sections.all (fun sec => wfSection sec.2) = true →
      countItems sections =
        .ok ((sections.map (fun sec => (sectionVarer sec.2).length)).sum) := by
  intro sections
  induction sections with
  | nil => intro _; rfl
  | cons sec rest ih =>
    intro h
    simp only [List.all_cons, Bool.and_eq_true] at h
    obtain ⟨h1, h2⟩ := h
    obtain ⟨nm, sv⟩ := sec
    rcases sv with _ | b | n | s | xs | skvs
    case obj =>
      rcases hv : jsonLookup skvs "varer" with _ | v
      · simp [countItems, hv, pyLen, ih h2, sectionVarer]
      · rcases v with _ | b2 | n2 | s2 | its | okvs
        case arr => simp [countItems, hv, pyLen, ih h2, sectionVarer]
        all_goals simp [wfSection, hv] at h1
    all_goals simp [countItems, ih h2, sectionVarer]

/-- On well-formed entries the inner item loop raises nothing and appends
exactly the stripped non-empty names. -/
theorem collectFromVarer_wf :
    ∀ (its : List Json) (acc : List String), its.all wfItem = true →
      collectFromVarer acc its = .ok (acc ++ its.filterMap navnOf) := by
  intro its
  induction its with
  | nil => intro acc _; simp [collectFromVarer]
  | cons it rest ih =>
    intro acc h
    simp only [List.all_cons, Bool.and_eq_true] at h
    obtain ⟨h1, h2⟩ := h
    have hh : handleItem acc it = .ok (acc ++ (navnOf it).toList) := by
      rcases it with _ | b | n | s | xs | ikvs
      case obj =>
        rcases hnv : jsonLookup ikvs "Navn" with _ | v
        · simp [handleItem, navnOf, hnv]
        · rcases v with _ | b2 | n2 | s2 | xs2 | okvs
          case str =>
            by_cases hs : s2 = ""
            · subst hs
              simp [handleItem, navnOf, hnv, pyTruthy, pyStrip]
            · simp only [handleItem, navnOf, hnv, pyTruthy]
              rw [if_pos (by simpa using hs)]
              by_cases hstrip : pyStrip s2 = ""
              · simp [hstrip]
              · simp [hstrip]
          all_goals simp [wfItem, hnv] at h1
      all_goals simp [handleItem, navnOf]
    rw [collectFromVarer, hh]
    show collectFromVarer (acc ++ (navnOf it).toList) rest = _
    rw [ih (acc ++ (navnOf it).toList) h2]
    rcases hn : navnOf it with _ | s
    · simp [List.filterMap_cons, hn]
    · simp [List.filterMap_cons, hn]

/-- On a well-formed payload the collection pass raises nothing and
produces the names of the claim in order. -/
theorem collectItems_wf :
    ∀ (sections : List (String × Json)) (acc : List String),
      sections.all (fun sec => wfSection sec.2) = true →
      collectItems acc sections = .ok (acc ++ specNames sections) := by
  intro sections
  induction sections with
  | nil => intro acc _; simp [collectItems, specNames]
  | cons sec rest ih =>
    intro acc h
    simp only [List.all_cons, Bool.and_eq_true] at h
    obtain ⟨h1, h2⟩ := h
    obtain ⟨nm, sv⟩ := sec
    rcases sv with _ | b | n | s | xs | skvs
    case obj =>
      rcases hv : jsonLookup skvs "varer" with _ | v
      · simp only [collectItems, hv, Option.getD_none, iterElems,
          collectFromVarer, ih acc h2]
        simp [specNames, sectionVarer, hv]
      · rcases v with _ | b2 | n2 | s2 | its | okvs
        case arr =>
          have hwfits : its.all wfItem = true := by
            have := h1
            simpa [wfSection, hv] using this
          simp only [collectItems, hv, Option.getD_some, iterElems,
            collectFromVarer_wf its acc hwfits,
            ih (acc ++ its.filterMap navnOf) h2]
          simp [specNames, sectionVarer, hv]
        all_goals simp [wfSection, hv] at h1
    all_goals
      simp only [collectItems, ih acc h2]
      simp [specNames, sectionVarer]

/-- A payload whose sections hold zero entries in total yields no names. -/
theorem specNames_of_zero :
    ∀ sections : List (String × Json),
      (sections.map (fun sec => (sectionVarer sec.2).length)).sum = 0 →
      specNames sections = [] := by
  intro sections
  induction sections with
  | nil => intro _; rfl
  | cons sec rest ih =>
    intro h
    simp only [List.map_cons, List.sum_cons, Nat.add_eq_zero] at h
    have hv : sectionVarer sec.2 = [] := List.length_eq_zero.mp h.1
    have hrest := ih h.2
    simp only [specNames, List.map_cons, List.flatten_cons, hv,
      List.filterMap_nil, List.nil_append]
    simpa [specNames] using hrest

/-- C3: for a payload whose dato echoes the requested date, the parse
returns exactly the stripped non-empty Navn values of all entries of the
varer lists of the sections, in section order then entry order; zero total
entries yield the empty list. -/
theorem parse_day_data_match (d : Int) (kvs sections : List (String × Json))
    (hdato : jsonLookup kvs "dato" = some (.str (isoDate d)))
    (hmenu : jsonLookup kvs "menuoverskrifter" = some (.obj sections))
    (hwf : sections.all (fun sec => wfSection sec.2) = true) :
    parse_day_data (.obj kvs) d = .ok (specNames sections) := by
  have hecho : isStrEq (jsonLookup kvs "dato") (isoDate d) = true := by
    rw [hdato]; simp [isStrEq]
  rcases hsec : sections with _ | ⟨sec0, rest⟩
  · simp [parse_day_data, hecho, hmenu, hsec, pyTruthy, specNames]
  · rw [← hsec]
    have hie : sections.isEmpty = false := by rw [hsec]; rfl
    have hcount := countItems_wf sections hwf
    simp only [parse_day_data, hecho, hmenu, Option.getD_some, pyTruthy, hie,
      Bool.not_false, Bool.not_true, Bool.false_eq_true, if_false, hcount]
    by_cases hz : (sections.map (fun sec => (sectionVarer sec.2).length)).sum = 0
    · rw [if_pos hz, specNames_of_zero sections hz]
    · rw [if_neg hz, collectItems_wf sections [] hwf]
      simp

/-- Witness for C3, the example of the spec: the 2025-06-16 payload with
one section A holding one entry Frikadeller parses to exactly that name. -/
theorem parse_day_data_match_witness :
    parse_day_data
      (.obj [("dato", .str "2025-06-16"),
             ("menuoverskrifter",
              .obj [("A", .obj [("varer",
                .arr [.obj [("Navn", .str "Frikadeller")]])])])])
      20255 =
      .ok (specNames
        [("A", .obj [("varer", .arr [.obj [("Navn", .str "Frikadeller")]])])]) ∧
    specNames
      [("A", .obj [("varer", .arr [.obj [("Navn", .str "Frikadeller")]])])] =
      ["Frikadeller"] := by
  constructor
  · exact parse_day_data_match 20255
      [("dato", .str "2025-06-16"),
       ("menuoverskrifter",
        .obj [("A", .obj [("varer",
          .arr [.obj [("Navn", .str "Frikadeller")]])])])]
      [("A", .obj [("varer", .arr [.obj [("Navn", .str "Frikadeller")]])])]
      (by rfl) rfl (by rfl)
  · rfl
